import Mathlib

/-!
Shallow embedding of `src/models.py` (the jiant multi-task model builder and
forward dispatcher) together with theorems checking the natural-language
specification against it.

Modelling conventions:
* Python exceptions are an explicit `PyError` value in an `Except` result.
* Tensors are lists of rationals; the batch and sequence dimensions of
  language-model tensors are flattened into a single position axis, so
  `view(b_size * seq_len, -1)` is the identity.
* External collaborators (AllenNLP / torch modules from `modules.py`,
  `tasks.py`, the vocabulary) are opaque: module instances are tracked by
  what the claims need (for pair-attention, an allocation identity), and
  numeric kernels (encoders, classifiers, loss terms) are parameters of an
  `Env` record.  `F.cross_entropy(_, _, ignore_index=pad)` is embedded
  concretely in its documented reduction structure (mean of per-row terms
  over rows whose target is not the ignored index) with the per-row term
  abstract.
* Metric side effects (`task.scorer1` / `task.scorer2`) do not influence the
  returned mapping and are not modelled.
-/

namespace Models

/-- Python exceptions that the modelled code can raise. -/
inductive PyError where
  | nameError (name : String)
  | assertionError (msg : String)
  | valueError (msg : String)
  | keyError (key : String)
  | attributeError (name : String)
  | notImplementedError
deriving DecidableEq, Repr

/-- A dynamically-typed attribute value on the `args` configuration object. -/
inductive AttrVal where
  | str (s : String)
  | nat (n : Nat)
  | bool (b : Bool)
  | rat (q : ℚ)
deriving DecidableEq, Repr

/-- Python truthiness of an attribute value. -/
def AttrVal.toBool : AttrVal → Bool
  | .str s => s ≠ ""
  | .nat n => n ≠ 0
  | .bool b => b
  | .rat q => q ≠ 0

/-- Association-list lookup (first binding wins), used for Python attribute
dictionaries. -/
def assocGet {β : Type} : List (String × β) → String → Option β
  | [], _ => none
  | (k1, v) :: rest, k => if k1 = k then some v else assocGet rest k

/-- Association-list update: replace an existing binding or append a new one
(`setattr` semantics). -/
def assocSet {β : Type} : List (String × β) → String → β → List (String × β)
  | [], k, v => [(k, v)]
  | (k1, v1) :: rest, k, v =>
    if k1 = k then (k, v) :: rest else (k1, v1) :: assocSet rest k v

/-- The configuration object.  Only the fields that influence the modelled
behaviour (widths, toggles, head hyperparameters) are kept; fields that feed
exclusively into opaque external module constructors (`char_filter_sizes`,
`n_char_filters`, `d_tproj`, `d_ff`, `n_layers_enc`, `n_heads`,
`n_layers_highway`, dropout rates other than the classifier dropout,
`d_hid_dec`, `n_layers_dec`, `cuda`, paths) are omitted.  `extra` holds
dynamically-set task-specific override attributes; it never shadows the
named global fields. -/
structure Args where
  word_embs : String
  d_word : Nat
  d_char : Nat
  cove : Bool
  char_embs : Bool
  elmo : Bool
  elmo_chars_only : Bool
  sent_enc : String
  bidirectional : Bool
  d_hid : Nat
  skip_embs : Bool
  classifier : String
  classifier_hid_dim : Nat
  d_proj : Nat
  pair_attn : Bool
  classifier_dropout : ℚ
  shared_pair_attn : Bool
  max_word_v_size : Nat
  extra : List (String × AttrVal) := []
deriving DecidableEq, Repr

/-- The task categories dispatched over by `isinstance` chains.  `other`
stands for any task object outside the recognized class hierarchy. -/
inductive TaskCategory where
  | singleClassification
  | pairClassification
  | pairRegression
  | pairOrdinalRegression
  | languageModeling
  | sequenceGeneration
  | ranking
  | other
deriving DecidableEq, Repr

/-- A task descriptor.  The `is...` flags model membership in the special
subclasses (`CoLATask`, `STSBTask`, `JOCITask`) that the forward pass
branches on; `n_classes` is `none` when the task object lacks the
attribute. -/
structure Task where
  name : String
  category : TaskCategory
  n_classes : Option Nat := none
  isCoLA : Bool := false
  isSTSB : Bool := false
  isJOCI : Bool := false
deriving DecidableEq, Repr

/-- A task-specific module attached to the model by `setattr`.  For pair
modules we record the identity (allocation id) of the pair-attention
sub-module the `PairClassifier` was handed: `none` means attention disabled
(Python `None`). -/
inductive Member where
  | singleMdl
  | pairMdl (pairAttn : Option Nat)
  | hid2voc
  | decoder
deriving DecidableEq, Repr

/-- The mutable attribute state of the `MultiTaskModel` container during
construction.  `members` are the named task-specific attributes;
`pair_attn` models the dedicated `model.pair_attn` attribute (`none` =
attribute absent, `some a` = attribute bound to `a`, where `a = none` is
Python `None`); `nextId` is a fresh-allocation counter giving each newly
constructed `AttnPairEncoder` a distinct identity. -/
structure ModelState where
  members : List (String × Member)
  pair_attn : Option (Option Nat)
  nextId : Nat
deriving DecidableEq, Repr

/-- The container state of a freshly constructed `MultiTaskModel`. -/
def initState : ModelState := { members := [], pair_attn := none, nextId := 0 }

/-! ## build_embeddings -/

/-- The effective word-embedding width: the pretrained matrix width when a
pretrained matrix is supplied for `glove`/`fastText`, else `args.d_word`. -/
def effWordDim (args : Args) (pretrained : Option Nat) : Nat :=
  if (args.word_embs = "glove" ∨ args.word_embs = "fastText") ∧ pretrained.isSome
  then pretrained.getD 0 else args.d_word

/-- The accumulated `d_emb` after the word, cove, char and elmo blocks of
`build_embeddings`: word width when word embeddings are on, plus 600 when a
CoVe module is constructed, plus `d_char` when character embeddings are on,
plus 512 (character-only) or 1024 (full) when ELMo is on. -/
def d_emb_total (args : Args) (pretrained : Option Nat) (coveOk : Bool) : Nat :=
  (if args.word_embs ≠ "none" then effWordDim args pretrained else 0)
  + (if args.cove ∧ coveOk then 600 else 0)
  + (if args.char_embs then args.d_char else 0)
  + (if args.elmo then (if args.elmo_chars_only then 512 else 1024) else 0)

/-- Embedding of `build_embeddings(args, vocab, pretrained_embs)`.
`pretrained` is the width of the supplied pretrained matrix (if any) and
`coveOk` says whether `from cove import MTLSTM` succeeds.  Returns
`(d_emb, cove_emb)` where `cove_emb = some ()` models a constructed CoVe
module and `none` models Python `None`.  Faithful to source trace order:
the cove block reads the local `embeddings` (bound only when word
embeddings are on), raising `NameError` there; otherwise the blocks only
accumulate `d_emb` (see `d_emb_total`), the `assert d_emb` (line 172)
raises `AssertionError` on zero total width, and the `return` (line 173)
raises `NameError` when the cove block hit `ImportError` and so never
bound the local `cove_emb`. -/
def build_embeddings (args : Args) (pretrained : Option Nat) (coveOk : Bool) :
    Except PyError (Nat × Option Unit) :=
  if args.cove ∧ coveOk ∧ args.word_embs = "none" then
    .error (.nameError "embeddings")
  else if d_emb_total args pretrained coveOk = 0 then
    .error (.assertionError "You turned off all the embeddings, ya goof!")
  else if args.cove ∧ ¬coveOk then
    .error (.nameError "cove_emb")
  else
    .ok (d_emb_total args pretrained coveOk, if args.cove then some () else none)

/-- True when at least one embedding source (word, character, ELMo) is
enabled in the configuration. -/
def anySource (args : Args) : Bool :=
  (args.word_embs ≠ "none") ∨ args.char_embs ∨ args.elmo

/-! ## get_task_specific_params -/

/-- `getattr(args, name)` as an optional value: the named global
configuration fields that `get_task_specific_params` can reach, then the
dynamic attributes in `args.extra`. -/
def argsGetAttr (args : Args) (name : String) : Option AttrVal :=
  match name with
  | "classifier" => some (.str args.classifier)
  | "classifier_hid_dim" => some (.nat args.classifier_hid_dim)
  | "d_proj" => some (.nat args.d_proj)
  | "pair_attn" => some (.bool args.pair_attn)
  | "classifier_dropout" => some (.rat args.classifier_dropout)
  | "shared_pair_attn" => some (.bool args.shared_pair_attn)
  | _ => assocGet args.extra name

/-- The inner `get_task_attr` helper: the task-specific attribute
`"<task>_<attr>"` when present, else the global attribute `"<attr>"`.
The global fallback is total because the helper is only invoked with
attribute names that exist as globals. -/
def get_task_attr (args : Args) (task attr : String) : AttrVal :=
  match argsGetAttr args (task ++ "_" ++ attr) with
  | some v => v
  | none => (argsGetAttr args attr).getD (.str "")

/-- The head-hyperparameter record returned by `get_task_specific_params`. -/
structure TaskParams where
  cls_type : AttrVal
  d_hid : AttrVal
  d_proj : AttrVal
  shared_pair_attn : Bool
  attn : AttrVal
  dropout : AttrVal
deriving DecidableEq, Repr

/-- Embedding of `get_task_specific_params(args, task)` (lines 201-220):
classifier type, classifier hidden dim and `d_proj` always go through the
task-specific fallback helper; `attn` and `dropout` go through it only when
`shared_pair_attn` is off, else they are read from the globals directly. -/
def get_task_specific_params (args : Args) (task : String) : TaskParams :=
  { cls_type := get_task_attr args task "classifier"
    d_hid := get_task_attr args task "classifier_hid_dim"
    d_proj := get_task_attr args task "d_proj"
    shared_pair_attn := args.shared_pair_attn
    attn := if args.shared_pair_attn then .bool args.pair_attn
            else get_task_attr args task "pair_attn"
    dropout := if args.shared_pair_attn then .rat args.classifier_dropout
               else get_task_attr args task "classifier_dropout" }

/-! ## Task head builders -/

/-- The inner `build_pair_attn(d_in, use_attn)` helper: `None` when
attention is off, else a freshly allocated `AttnPairEncoder` instance
(identified by a fresh id drawn from the state counter). -/
def build_pair_attn (st : ModelState) (use_attn : Bool) : Option Nat × ModelState :=
  if ¬use_attn then (none, st)
  else (some st.nextId, { st with nextId := st.nextId + 1 })

/-- Embedding of `build_pair_sentence_module(task, d_inp, model, vocab,
params)` (lines 230-262), tracking which pair-attention instance the
returned `PairClassifier` holds and how the container state changes.  When
sharing is requested, the first construction attaches the built (possibly
`None`) pair-attention to the container attribute `pair_attn` and later
constructions reuse the attached value; otherwise a fresh module is built
per task.  The pooler and classifier sub-modules carry no shared state and
are not tracked. -/
def build_pair_sentence_module (_task : Task) (_d_inp : Nat) (st : ModelState)
    (params : TaskParams) : Option Nat × ModelState :=
  if params.shared_pair_attn then
    match st.pair_attn with
    | none =>
      let (pa, st1) := build_pair_attn st params.attn.toBool
      (pa, { st1 with pair_attn := some pa })
    | some pa => (pa, st)
  else build_pair_attn st params.attn.toBool

/-- Embedding of `build_modules(tasks, model, d_sent, vocab, embedder,
args)` (lines 176-199): walks the task list and attaches the
category-appropriate head members to the container by `setattr`, raising
`ValueError` on an unrecognized task.  The vocabulary and embedder feed
only into opaque sub-module constructors and are omitted. -/
def build_modules (tasks : List Task) (d_sent : Nat) (st : ModelState) (args : Args) :
    Except PyError ModelState :=
  match tasks with
  | [] => .ok st
  | task :: rest =>
    let task_params := get_task_specific_params args task.name
    match task.category with
    | .singleClassification =>
      build_modules rest d_sent
        { st with members := assocSet st.members (task.name ++ "_mdl") .singleMdl } args
    | .pairClassification | .pairRegression | .pairOrdinalRegression =>
      let res := build_pair_sentence_module task d_sent st task_params
      build_modules rest d_sent
        { res.2 with members := assocSet res.2.members (task.name ++ "_mdl") (.pairMdl res.1) }
        args
    | .languageModeling =>
      build_modules rest d_sent
        { st with members := assocSet st.members (task.name ++ "_hid2voc") .hid2voc } args
    | .sequenceGeneration =>
      let withDec := assocSet st.members (task.name ++ "_decoder") Member.decoder
      build_modules rest d_sent
        { st with members := assocSet withDec (task.name ++ "_hid2voc") Member.hid2voc } args
    | .ranking => build_modules rest d_sent st args
    | .other => .error (.valueError ("Module not found for " ++ task.name))

/-! ## build_model -/

/-- The observable outcome of `build_model`: the embedding width, the
sentence-encoder output width, and the container attribute state.  The two
widths are internal to the Python function; they are exposed here so the
width claims can speak about them. -/
structure BuiltModel where
  d_emb : Nat
  d_sent : Nat
  model : ModelState
deriving DecidableEq, Repr

/-- Embedding of `build_model(args, vocab, pretrained_embs, tasks)`
(lines 39-97): build the embeddings, compute `d_sent` along the encoder
branch actually taken (`d_sent` starts at `args.d_hid`, is overwritten by
the `bow` and `rnn` branches, and gets `skip_embs * d_emb` added at the
end), then build the task modules on a fresh container.  Branches in which
Python would leave `fwd` or `sent_encoder` unbound (a language-modeling
task with an encoder type other than `rnn`/`transformer`, or an encoder
type outside `bow`/`rnn`/`transformer`) raise `NameError`. -/
def build_model (args : Args) (pretrained : Option Nat) (coveOk : Bool)
    (tasks : List Task) : Except PyError BuiltModel :=
  match build_embeddings args pretrained coveOk with
  | .error e => .error e
  | .ok (d_emb, _cove_emb) =>
    let hasLM : Bool := tasks.any (fun t => decide (t.category = .languageModeling))
    let d_sent_enc : Except PyError Nat :=
      if hasLM then
        if args.sent_enc = "rnn" ∨ args.sent_enc = "transformer" then .ok args.d_hid
        else .error (.nameError "fwd")
      else if args.sent_enc = "bow" then .ok d_emb
      else if args.sent_enc = "rnn" then
        .ok ((1 + (if args.bidirectional then 1 else 0)) * args.d_hid)
      else if args.sent_enc = "transformer" then .ok args.d_hid
      else .error (.nameError "sent_encoder")
    match d_sent_enc with
    | .error e => .error e
    | .ok d0 =>
      let d_sent := d0 + (if args.skip_embs then d_emb else 0)
      match build_modules tasks d_sent initState args with
      | .error e => .error e
      | .ok st => .ok { d_emb := d_emb, d_sent := d_sent, model := st }

/-! ## MultiTaskModel.forward -/

/-- A sequence of per-position vectors (also used for logits matrices). -/
abbrev Mat := List (List ℚ)

/-- A text field of a batch: its `"words"` tensor of token ids, with the
batch and sequence dimensions flattened into one axis. -/
structure TokenField where
  words : List Nat
deriving DecidableEq, Repr

/-- A batch: the optional fields the forward paths read.  A `none` field
means the key is absent from the batch dictionary (reading it raises
`KeyError`). -/
structure Batch where
  input1 : Option (List Nat) := none
  input2 : Option (List Nat) := none
  labels : Option (List Nat) := none
  input : Option TokenField := none
  input_bwd : Option TokenField := none
  targs : Option TokenField := none
  targs_b : Option TokenField := none
  inputs : Option TokenField := none
deriving DecidableEq, Repr

/-- The numeric kernels delegated to external modules: the shared sentence
encoder (one- and two-input forms), head-module application, the loss
functions, the per-row cross-entropy term and the hidden-to-vocabulary
projection (applied position-wise, as `nn.Linear` acts on the last axis). -/
structure Env where
  encode : List Nat → Mat × List Bool
  encodeBi : List Nat → List Nat → Mat × List Bool
  classifySingle : Member → Mat → List Bool → Mat
  classifyPair : Member → Mat → Mat → List Bool → List Bool → Mat
  cross_entropy : Mat → List Nat → ℚ
  mse : List ℚ → List Nat → ℚ
  nll : List ℚ → Nat → ℚ
  hid2voc : Member → List ℚ → List ℚ

/-- The runtime container: the attribute state built by `build_modules`,
whether the shared encoder is a `BiLMEncoder`, its `output_dim` (used to
split forward/backward halves), and the vocabulary padding index. -/
structure MultiTaskModel where
  st : ModelState
  isBiLM : Bool
  outputDim : Nat
  padIdx : Nat

/-- The returned output dictionary: presence of the `"logits"` and
`"loss"` keys with their values. -/
structure Out where
  logits : Option Mat := none
  loss : Option ℚ := none
deriving DecidableEq, Repr

/-- `tensor.squeeze(-1)` on a column of singleton rows: each row collapses
to its entry. -/
def squeezeLast (m : Mat) : List ℚ := m.map (fun r => r.headD 0)

/-- `sent.masked_fill(1 - mask.byte(), 0)`: zero the vector at every
position whose mask bit is off. -/
def maskedFill (mask : List Bool) (sent : Mat) : Mat :=
  List.zipWith (fun b v => if b then v else v.map (fun _ => (0 : ℚ))) mask sent

/-- `F.cross_entropy(logits, targs, ignore_index=ignore)`: the mean of the
per-row loss terms over the rows whose target is not the ignored index.
The per-row term `nll` (negative log-softmax at the target) is an opaque
parameter; only the documented reduction structure is concrete.  (An empty
surviving set divides zero by zero, which is 0 in ℚ where torch yields a
non-finite value.) -/
def crossEntropyIgnore (nll : List ℚ → Nat → ℚ) (logits : Mat) (targs : List Nat)
    (ignore : Nat) : ℚ :=
  let kept := (logits.zip targs).filter (fun p => p.2 ≠ ignore)
  (kept.map (fun p => nll p.1 p.2)).sum / kept.length

/-- `MultiTaskModel._single_sentence_forward` (lines 321-344): encode
`input1`, apply the task's `"<name>_mdl"` classifier, and add a
cross-entropy loss exactly when `labels` is in the batch.  Scorer updates
are side effects on the task object and are not modelled. -/
def single_sentence_forward (env : Env) (m : MultiTaskModel) (batch : Batch)
    (task : Task) : Except PyError Out :=
  match batch.input1 with
  | none => .error (.keyError "input1")
  | some inp =>
    let enc := env.encode inp
    match assocGet m.st.members (task.name ++ "_mdl") with
    | none => .error (.attributeError (task.name ++ "_mdl"))
    | some classifier =>
      let logits := env.classifySingle classifier enc.1 enc.2
      match batch.labels with
      | some labels =>
        .ok { logits := some logits, loss := some (env.cross_entropy logits labels) }
      | none => .ok { logits := some logits, loss := none }

/-- `MultiTaskModel._pair_sentence_forward` (lines 346-377): encode both
inputs through the same shared encoder, apply the `"<name>_mdl"` pair
classifier, and when `labels` is present add a loss: mean-squared-error on
the squeezed logits for `JOCITask` and `STSBTask`, cross-entropy
otherwise. -/
def pair_sentence_forward (env : Env) (m : MultiTaskModel) (batch : Batch)
    (task : Task) : Except PyError Out :=
  match batch.input1 with
  | none => .error (.keyError "input1")
  | some i1 =>
    match batch.input2 with
    | none => .error (.keyError "input2")
    | some i2 =>
      let enc1 := env.encode i1
      let enc2 := env.encode i2
      match assocGet m.st.members (task.name ++ "_mdl") with
      | none => .error (.attributeError (task.name ++ "_mdl"))
      | some classifier =>
        let logits := env.classifyPair classifier enc1.1 enc2.1 enc1.2 enc2.2
        match batch.labels with
        | none => .ok { logits := some logits, loss := none }
        | some labels =>
          if task.isJOCI then
            .ok { logits := some logits, loss := some (env.mse (squeezeLast logits) labels) }
          else if task.isSTSB then
            .ok { logits := some logits, loss := some (env.mse (squeezeLast logits) labels) }
          else
            .ok { logits := some logits, loss := some (env.cross_entropy logits labels) }

/-- `MultiTaskModel._seq_gen_forward` (lines 379-387): reads the input
shape, encodes the input, and returns the empty dictionary; the
`'targs' in batch` branch is `pass`. -/
def seq_gen_forward (env : Env) (_m : MultiTaskModel) (batch : Batch)
    (_task : Task) : Except PyError Out :=
  match batch.inputs with
  | none => .error (.keyError "inputs")
  | some inputsF =>
    let _shape := inputsF.words.length
    let _enc := env.encode inputsF.words
    .ok {}

/-- `MultiTaskModel._lm_forward` (lines 389-419).  Non-`BiLMEncoder` path:
encode `input`, zero padded positions, project position-wise through the
task's `"<name>_hid2voc"` member, and take the padding-ignoring
cross-entropy against `targs`.  `BiLMEncoder` path: encode
(`input`, `input_bwd`), zero padded positions, split each position vector
at `output_dim / 2`, project both halves, concatenate forward and backward
logits along the position axis and `targs`/`targs_b` likewise, then one
combined padding-ignoring cross-entropy. -/
def lm_forward (env : Env) (m : MultiTaskModel) (batch : Batch)
    (task : Task) : Except PyError Out :=
  match batch.input with
  | none => .error (.keyError "input")
  | some inputF =>
    if ¬m.isBiLM then
      let enc := env.encode inputF.words
      let sentZ := maskedFill enc.2 enc.1
      match assocGet m.st.members (task.name ++ "_hid2voc") with
      | none => .error (.attributeError (task.name ++ "_hid2voc"))
      | some h2v =>
        let logits := sentZ.map (env.hid2voc h2v)
        match batch.targs with
        | none => .error (.keyError "targs")
        | some targsF =>
          let loss := crossEntropyIgnore env.nll logits targsF.words m.padIdx
          .ok { logits := some logits, loss := some loss }
    else
      match batch.input_bwd with
      | none => .error (.keyError "input_bwd")
      | some inputB =>
        let enc := env.encodeBi inputF.words inputB.words
        let sentZ := maskedFill enc.2 enc.1
        let split := m.outputDim / 2
        match assocGet m.st.members (task.name ++ "_hid2voc") with
        | none => .error (.attributeError (task.name ++ "_hid2voc"))
        | some h2v =>
          let logitsFwd := (sentZ.map (List.take split)).map (env.hid2voc h2v)
          let logitsBwd := (sentZ.map (List.drop split)).map (env.hid2voc h2v)
          let logits := logitsFwd ++ logitsBwd
          match batch.targs with
          | none => .error (.keyError "targs")
          | some targsF =>
            match batch.targs_b with
            | none => .error (.keyError "targs_b")
            | some targsB =>
              let targs := targsF.words ++ targsB.words
              let loss := crossEntropyIgnore env.nll logits targs m.padIdx
              .ok { logits := some logits, loss := some loss }

/-- `MultiTaskModel._ranking_forward` (lines 421-423). -/
def ranking_forward (_env : Env) (_m : MultiTaskModel) (_batch : Batch)
    (_task : Task) : Except PyError Out :=
  .error .notImplementedError

/-- `MultiTaskModel.forward(task, batch)` (lines 294-319): route to the
forward path matching the task's category, `ValueError` when none
matches. -/
def MultiTaskModel.forward (env : Env) (m : MultiTaskModel) (task : Task)
    (batch : Batch) : Except PyError Out :=
  match task.category with
  | .singleClassification => single_sentence_forward env m batch task
  | .pairClassification | .pairRegression | .pairOrdinalRegression =>
    pair_sentence_forward env m batch task
  | .languageModeling => lm_forward env m batch task
  | .sequenceGeneration => seq_gen_forward env m batch task
  | .ranking => ranking_forward env m batch task
  | .other => .error (.valueError "Task-specific components not found!")

/-! ## Helper lemmas -/

theorem assocGet_assocSet {β : Type} (l : List (String × β)) (k k1 : String) (v : β) :
    assocGet (assocSet l k v) k1 = if k = k1 then some v else assocGet l k1 := by
  induction l with
  | nil => simp [assocGet, assocSet]
  | cons hd tl ih =>
    obtain ⟨k2, v2⟩ := hd
    by_cases h2 : k2 = k
    · subst h2
      by_cases h1 : k2 = k1 <;> simp [assocGet, assocSet, h1]
    · by_cases h1 : k2 = k1
      · subst h1
        have hne : ¬k = k2 := fun h => h2 h.symm
        simp [assocGet, assocSet, h2, hne]
      · simp [assocGet, assocSet, h2, h1, ih]

theorem assocGet_assocSet_isSome {β : Type} (l : List (String × β)) (k k1 : String) (v : β)
    (h : (assocGet l k1).isSome) : (assocGet (assocSet l k v) k1).isSome := by
  rw [assocGet_assocSet]
  split <;> simp [h]

/-! ## Demonstration configurations used by the concrete witnesses -/

/-- A demonstration configuration: word and character embeddings on, shared
pair attention on. -/
def demoArgs : Args :=
  { word_embs := "scratch", d_word := 300, d_char := 100, cove := false,
    char_embs := true, elmo := false, elmo_chars_only := false,
    sent_enc := "rnn", bidirectional := true, d_hid := 8, skip_embs := true,
    classifier := "mlp", classifier_hid_dim := 16, d_proj := 4,
    pair_attn := true, classifier_dropout := 1/5, shared_pair_attn := true,
    max_word_v_size := 50 }

/-- One demonstration task of each constructible category. -/
def demoTasks : List Task :=
  [ { name := "sst", category := .singleClassification },
    { name := "mnli", category := .pairClassification },
    { name := "sts", category := .pairRegression, isSTSB := true },
    { name := "joci", category := .pairOrdinalRegression, isJOCI := true },
    { name := "lm", category := .languageModeling },
    { name := "mt", category := .sequenceGeneration },
    { name := "rank", category := .ranking } ]

/-- The container state `build_modules demoTasks` produces from a fresh
container. -/
def demoBuiltState : ModelState :=
  { members :=
      [ ("sst_mdl", Member.singleMdl),
        ("mnli_mdl", Member.pairMdl (some 0)),
        ("sts_mdl", Member.pairMdl (some 0)),
        ("joci_mdl", Member.pairMdl (some 0)),
        ("lm_hid2voc", Member.hid2voc),
        ("mt_decoder", Member.decoder),
        ("mt_hid2voc", Member.hid2voc) ],
    pair_attn := some (some 0),
    nextId := 1 }

/-- A minimal concrete environment for evaluating forward passes. -/
def demoEnv : Env :=
  { encode := fun _ => ([], []),
    encodeBi := fun _ _ => ([], []),
    classifySingle := fun _ s _ => s,
    classifyPair := fun _ s _ _ _ => s,
    cross_entropy := fun _ _ => 0,
    mse := fun _ _ => 0,
    nll := fun v t => v.headD 0 + t,
    hid2voc := fun _ v => v }

/-- A minimal concrete container for evaluating forward passes. -/
def demoModel : MultiTaskModel :=
  { st := initState, isBiLM := false, outputDim := 2, padIdx := 0 }

/-! ## C6 -/

/-- C6: for every task of category Ranking and every batch,
`MultiTaskModel.forward` raises `NotImplementedError` (never a silent no-op
or empty result); and for every task whose category falls outside the
recognized set (the `other` category), it raises the `ValueError` stating
the task-specific components were not found. -/
theorem forward_ranking_unrecognized_errors (env : Env) (m : MultiTaskModel)
    (task : Task) (batch : Batch) :
    (task.category = .ranking →
      MultiTaskModel.forward env m task batch = .error .notImplementedError) ∧
    (task.category = .other →
      MultiTaskModel.forward env m task batch =
        .error (.valueError "Task-specific components not found!")) := by
  constructor <;> intro h <;>
    simp [MultiTaskModel.forward, h, ranking_forward]

/-- Witness for C6 at a concrete ranking task and empty batch. -/
theorem forward_ranking_unrecognized_errors_witness :
    MultiTaskModel.forward demoEnv demoModel
      { name := "rank", category := .ranking } {} = .error .notImplementedError :=
  (forward_ranking_unrecognized_errors demoEnv demoModel
    { name := "rank", category := .ranking } {}).1 rfl

/-! ## C7 -/

/-- A configuration enabling CoVe, evaluated in an environment where the
`cove` package cannot be imported. -/
def coveFailArgs : Args :=
  { word_embs := "scratch", d_word := 300, d_char := 100, cove := true,
    char_embs := false, elmo := false, elmo_chars_only := false,
    sent_enc := "rnn", bidirectional := false, d_hid := 4, skip_embs := false,
    classifier := "mlp", classifier_hid_dim := 8, d_proj := 4,
    pair_attn := true, classifier_dropout := 1/5, shared_pair_attn := false,
    max_word_v_size := 50 }

/-- C7 (code bug): with CoVe enabled and its import failing, the claim and
spec say `build_embeddings` logs the failure and returns as if no CoVe
layer were configured; the code instead raises `NameError` at the `return`
statement because the `except ImportError` path never binds the local
`cove_emb`. -/
theorem build_embeddings_cove_import_failure_bug :
    build_embeddings coveFailArgs none false = .error (.nameError "cove_emb") := rfl

/-! ## C10 -/

/-- C10: whenever CoVe is enabled (and its import succeeds) while word
embeddings are set to `none`, the CoVe construction reads the
word-embedding local `embeddings` that was never created, so
`build_embeddings` fails with an unhandled `NameError` rather than any
declared configuration error. -/
theorem build_embeddings_cove_without_word_nameerror (args : Args)
    (pretrained : Option Nat) (hcove : args.cove = true)
    (hword : args.word_embs = "none") :
    build_embeddings args pretrained true = .error (.nameError "embeddings") := by
  simp [build_embeddings, hcove, hword]

/-- A configuration with CoVe on and word embeddings off. -/
def coveNoWordArgs : Args :=
  { coveFailArgs with word_embs := "none", char_embs := true }

/-- Witness for C10 at a concrete configuration. -/
theorem build_embeddings_cove_without_word_nameerror_witness :
    build_embeddings coveNoWordArgs none true = .error (.nameError "embeddings") :=
  build_embeddings_cove_without_word_nameerror coveNoWordArgs none rfl rfl

/-! ## C2 -/

/-- A configuration whose only enabled embedding source is word embeddings
learned from scratch with width 0. -/
def zeroWidthArgs : Args :=
  { word_embs := "scratch", d_word := 0, d_char := 100, cove := false,
    char_embs := false, elmo := false, elmo_chars_only := false,
    sent_enc := "rnn", bidirectional := false, d_hid := 4, skip_embs := false,
    classifier := "mlp", classifier_hid_dim := 8, d_proj := 4,
    pair_attn := true, classifier_dropout := 1/5, shared_pair_attn := false,
    max_word_v_size := 50 }

/-- Counterexample to C2 as stated: a configuration with the word embedding
source enabled (width 0) on which `build_embeddings` does not return any
width — it dies on the zero-width assertion. -/
theorem build_embeddings_zero_width_cex :
    zeroWidthArgs.word_embs ≠ "none" ∧
    build_embeddings zeroWidthArgs none true =
      .error (.assertionError "You turned off all the embeddings, ya goof!") :=
  ⟨by decide, rfl⟩

/-- C2 (amended): provided CoVe is disabled or imports successfully with
word embeddings enabled, and each enabled word/character source has
positive width, `build_embeddings` returns `d_emb > 0` whenever at least
one embedding source is enabled, and fails with the zero-width assertion
(a configuration error) when every source is disabled. -/
theorem build_embeddings_pos_width (args : Args) (pretrained : Option Nat)
    (coveOk : Bool)
    (hcove : args.cove = false ∨ (args.word_embs ≠ "none" ∧ coveOk = true))
    (hw : args.word_embs ≠ "none" → 0 < effWordDim args pretrained)
    (hc : args.char_embs = true → 0 < args.d_char) :
    (anySource args = true →
      ∃ d c, build_embeddings args pretrained coveOk = .ok (d, c) ∧ 0 < d) ∧
    (anySource args = false →
      build_embeddings args pretrained coveOk =
        .error (.assertionError "You turned off all the embeddings, ya goof!")) := by
  have h1 : ¬(args.cove = true ∧ coveOk = true ∧ args.word_embs = "none") := by
    rintro ⟨hc1, _, hc3⟩
    rcases hcove with h | ⟨h, _⟩
    · exact absurd hc1 (by simp [h])
    · exact h hc3
  have h3 : ¬(args.cove = true ∧ ¬coveOk = true) := by
    rintro ⟨hc1, hc2⟩
    rcases hcove with h | ⟨_, h⟩
    · exact absurd hc1 (by simp [h])
    · exact hc2 h
  constructor
  · intro hsome
    have hpos : 0 < d_emb_total args pretrained coveOk := by
      simp only [anySource, Bool.decide_or, Bool.or_eq_true, decide_eq_true_eq] at hsome
      unfold d_emb_total
      rcases hsome with h | h | h
      · have := hw h
        rw [if_pos h]
        omega
      · have := hc h
        rw [if_pos h]
        omega
      · rw [if_pos h]
        rcases Bool.eq_false_or_eq_true args.elmo_chars_only with heo | heo <;>
          simp [heo]
    simp only [build_embeddings]
    rw [if_neg h1, if_neg (by omega), if_neg h3]
    exact ⟨_, _, rfl, hpos⟩
  · intro hnone
    simp only [anySource, Bool.decide_or, Bool.or_eq_false_iff, decide_eq_false_iff_not,
      not_not] at hnone
    obtain ⟨hwn, hch, hel⟩ := hnone
    have hcv : args.cove = false := by
      rcases hcove with h | ⟨h, _⟩
      · exact h
      · exact absurd hwn h
    have hzero : d_emb_total args pretrained coveOk = 0 := by
      simp [d_emb_total, hwn, hch, hel, hcv]
    simp only [build_embeddings]
    rw [if_neg (by simp [hcv]), if_pos hzero]

/-- A configuration with only ELMo enabled. -/
def elmoOnlyArgs : Args :=
  { zeroWidthArgs with word_embs := "none", elmo := true, elmo_chars_only := false }

/-- Witness for the amended C2 at a concrete ELMo-only configuration. -/
theorem build_embeddings_pos_width_witness :
    ∃ d c, build_embeddings elmoOnlyArgs none true = .ok (d, c) ∧ 0 < d :=
  (build_embeddings_pos_width elmoOnlyArgs none true (Or.inl rfl)
    (fun h => absurd rfl h) (fun h => by simp [elmoOnlyArgs, zeroWidthArgs] at h ⊢)).1
    (by decide)

/-! ## C9 -/

/-- A configuration with shared pair attention on, a global `pair_attn` of
`True`, and a task-specific `mytask_pair_attn` override of `False`. -/
def sharedOverrideArgs : Args :=
  { demoArgs with extra := [("mytask_pair_attn", AttrVal.bool false)] }

/-- Counterexample to C9 as stated: with `shared_pair_attn = True`, the
task-specific `mytask_pair_attn` override is present (and `False`), yet
`get_task_specific_params` resolves `attn` to the global `pair_attn`
(`True`), not the override. -/
theorem task_params_shared_attn_cex :
    argsGetAttr sharedOverrideArgs ("mytask" ++ "_" ++ "pair_attn") =
      some (AttrVal.bool false) ∧
    (get_task_specific_params sharedOverrideArgs "mytask").attn = AttrVal.bool true ∧
    AttrVal.bool true ≠ AttrVal.bool false :=
  ⟨rfl, rfl, by decide⟩

/-- C9 (amended): `get_task_specific_params` resolves classifier type,
classifier hidden dim and `d_proj` from the task-specific key
`"<task>_<attr>"` when present and from the global key otherwise; it does
the same for `pair_attn` and `classifier_dropout` only when
`shared_pair_attn` is off — when `shared_pair_attn` is on, those two are
taken from the global keys unconditionally, ignoring any task-specific
override. -/
theorem get_task_specific_params_spec (args : Args) (task : String) :
    ((∀ v, argsGetAttr args (task ++ "_" ++ "classifier") = some v →
        (get_task_specific_params args task).cls_type = v) ∧
     (argsGetAttr args (task ++ "_" ++ "classifier") = none →
        (get_task_specific_params args task).cls_type = .str args.classifier)) ∧
    ((∀ v, argsGetAttr args (task ++ "_" ++ "classifier_hid_dim") = some v →
        (get_task_specific_params args task).d_hid = v) ∧
     (argsGetAttr args (task ++ "_" ++ "classifier_hid_dim") = none →
        (get_task_specific_params args task).d_hid = .nat args.classifier_hid_dim)) ∧
    ((∀ v, argsGetAttr args (task ++ "_" ++ "d_proj") = some v →
        (get_task_specific_params args task).d_proj = v) ∧
     (argsGetAttr args (task ++ "_" ++ "d_proj") = none →
        (get_task_specific_params args task).d_proj = .nat args.d_proj)) ∧
    (args.shared_pair_attn = false →
      ((∀ v, argsGetAttr args (task ++ "_" ++ "pair_attn") = some v →
          (get_task_specific_params args task).attn = v) ∧
       (argsGetAttr args (task ++ "_" ++ "pair_attn") = none →
          (get_task_specific_params args task).attn = .bool args.pair_attn)) ∧
      ((∀ v, argsGetAttr args (task ++ "_" ++ "classifier_dropout") = some v →
          (get_task_specific_params args task).dropout = v) ∧
       (argsGetAttr args (task ++ "_" ++ "classifier_dropout") = none →
          (get_task_specific_params args task).dropout = .rat args.classifier_dropout))) ∧
    (args.shared_pair_attn = true →
      (get_task_specific_params args task).attn = .bool args.pair_attn ∧
      (get_task_specific_params args task).dropout = .rat args.classifier_dropout) := by
  refine ⟨⟨?_, ?_⟩, ⟨?_, ?_⟩, ⟨?_, ?_⟩, ?_, ?_⟩
  · intro v h
    simp [get_task_specific_params, get_task_attr, h]
  · intro h
    simp only [get_task_specific_params, get_task_attr, h]
    rfl
  · intro v h
    simp [get_task_specific_params, get_task_attr, h]
  · intro h
    simp only [get_task_specific_params, get_task_attr, h]
    rfl
  · intro v h
    simp [get_task_specific_params, get_task_attr, h]
  · intro h
    simp only [get_task_specific_params, get_task_attr, h]
    rfl
  · intro hsh
    refine ⟨⟨?_, ?_⟩, ?_, ?_⟩
    · intro v h
      simp [get_task_specific_params, get_task_attr, h, hsh]
    · intro h
      simp only [get_task_specific_params, get_task_attr, hsh, h]
      rfl
    · intro v h
      simp [get_task_specific_params, get_task_attr, h, hsh]
    · intro h
      simp only [get_task_specific_params, get_task_attr, hsh, h]
      rfl
  · intro hsh
    simp [get_task_specific_params, hsh]

/-- A configuration with per-task sharing off and a `mytask_pair_attn`
override present. -/
def overrideArgs : Args :=
  { demoArgs with
    shared_pair_attn := false
    extra := [("mytask_pair_attn", AttrVal.bool false)] }

/-- Witness for the amended C9: with sharing off, the present
`mytask_pair_attn` override is what `attn` resolves to. -/
theorem get_task_specific_params_spec_witness :
    (get_task_specific_params overrideArgs "mytask").attn = AttrVal.bool false := by
  have h := get_task_specific_params_spec overrideArgs "mytask"
  exact (h.2.2.2.1 rfl).1.1 (AttrVal.bool false) rfl

/-! ## C3 -/

/-- C3: for configurations without a language-modeling task, the sentence
encoder width `d_sent` computed by `build_model` is `d_emb` for `bow`,
`(1 + bidirectional) * d_hid` for `rnn`, and `d_hid` for `transformer`,
plus `d_emb` once more exactly when skip-embeddings are on. -/
theorem build_model_d_sent_spec (args : Args) (pretrained : Option Nat)
    (coveOk : Bool) (tasks : List Task) (bm : BuiltModel)
    (hlm : tasks.any (fun t => decide (t.category = .languageModeling)) = false)
    (hok : build_model args pretrained coveOk tasks = .ok bm) :
    (args.sent_enc = "bow" →
      bm.d_sent = bm.d_emb + (if args.skip_embs then bm.d_emb else 0)) ∧
    (args.sent_enc = "rnn" →
      bm.d_sent = (1 + (if args.bidirectional then 1 else 0)) * args.d_hid
        + (if args.skip_embs then bm.d_emb else 0)) ∧
    (args.sent_enc = "transformer" →
      bm.d_sent = args.d_hid + (if args.skip_embs then bm.d_emb else 0)) := by
  cases hemb : build_embeddings args pretrained coveOk with
  | error e => simp [build_model, hemb] at hok
  | ok p =>
    obtain ⟨d_emb, cove⟩ := p
    refine ⟨?_, ?_, ?_⟩ <;> intro henc <;>
      simp only [build_model, hemb, hlm, henc] at hok <;>
      simp at hok <;>
      split at hok <;>
      simp_all <;>
      cases hok <;>
      simp

/-! ## C1 -/

/-- The head member names `build_modules` is supposed to attach for a task:
`"<name>_mdl"` for single and pair classification/regression tasks,
`"<name>_hid2voc"` for language modeling, `"<name>_decoder"` plus
`"<name>_hid2voc"` for sequence generation, and nothing for ranking. -/
def expected_heads (t : Task) : List String :=
  match t.category with
  | .singleClassification | .pairClassification | .pairRegression
  | .pairOrdinalRegression => [t.name ++ "_mdl"]
  | .languageModeling => [t.name ++ "_hid2voc"]
  | .sequenceGeneration => [t.name ++ "_decoder", t.name ++ "_hid2voc"]
  | .ranking => []
  | .other => []

theorem build_pair_sentence_module_members (task : Task) (d : Nat)
    (st : ModelState) (params : TaskParams) :
    ((build_pair_sentence_module task d st params).2).members = st.members := by
  obtain ⟨mem, pa0, nid⟩ := st
  rcases Bool.eq_false_or_eq_true params.shared_pair_attn with hsp | hsp <;>
    cases pa0 <;>
      simp [build_pair_sentence_module, build_pair_attn, hsp] <;>
        (first | rfl | (split_ifs <;> rfl))

theorem build_modules_members_mono (tasks : List Task) (d_sent : Nat) (args : Args) :
    ∀ (st st1 : ModelState), build_modules tasks d_sent st args = .ok st1 →
    ∀ k, (assocGet st.members k).isSome → (assocGet st1.members k).isSome := by
  induction tasks with
  | nil =>
    intro st st1 hok k hk
    simp only [build_modules, Except.ok.injEq] at hok
    subst hok
    exact hk
  | cons t rest ih =>
    intro st st1 hok k hk
    cases hcat : t.category <;> simp only [build_modules, hcat] at hok
    case singleClassification =>
      exact ih _ _ hok k (assocGet_assocSet_isSome _ _ _ _ hk)
    case pairClassification =>
      refine ih _ _ hok k ?_
      rw [build_pair_sentence_module_members]
      exact assocGet_assocSet_isSome _ _ _ _ hk
    case pairRegression =>
      refine ih _ _ hok k ?_
      rw [build_pair_sentence_module_members]
      exact assocGet_assocSet_isSome _ _ _ _ hk
    case pairOrdinalRegression =>
      refine ih _ _ hok k ?_
      rw [build_pair_sentence_module_members]
      exact assocGet_assocSet_isSome _ _ _ _ hk
    case languageModeling =>
      exact ih _ _ hok k (assocGet_assocSet_isSome _ _ _ _ hk)
    case sequenceGeneration =>
      exact ih _ _ hok k
        (assocGet_assocSet_isSome _ _ _ _ (assocGet_assocSet_isSome _ _ _ _ hk))
    case ranking =>
      exact ih _ _ hok k hk
    case other =>
      cases hok

/-- C1: when `build_modules` completes over any task list, every task of a
single/pair classification or regression category has its `"<name>_mdl"`
member attached, language-modeling tasks have `"<name>_hid2voc"`,
sequence-generation tasks have both `"<name>_decoder"` and
`"<name>_hid2voc"` (see `expected_heads`); and every member of the
resulting container either pre-existed or is an expected head of one of
the tasks — in particular, Ranking tasks contribute no head at all. -/
theorem build_modules_heads_complete (tasks : List Task) (d_sent : Nat)
    (st : ModelState) (args : Args) (st1 : ModelState)
    (hok : build_modules tasks d_sent st args = .ok st1) :
    (∀ t ∈ tasks, ∀ k ∈ expected_heads t, (assocGet st1.members k).isSome) ∧
    (∀ k, (assocGet st1.members k).isSome →
      (assocGet st.members k).isSome ∨ ∃ t ∈ tasks, k ∈ expected_heads t) := by
  induction tasks generalizing st with
  | nil =>
    simp only [build_modules, Except.ok.injEq] at hok
    subst hok
    exact ⟨by simp, fun k hk => Or.inl hk⟩
  | cons t rest ih =>
    cases hcat : t.category <;> simp only [build_modules, hcat] at hok
    case other => cases hok
    case ranking =>
      obtain ⟨ih1, ih2⟩ := ih st hok
      refine ⟨?_, ?_⟩
      · intro t' ht' k hk
        rcases List.mem_cons.mp ht' with rfl | ht'
        · simp [expected_heads, hcat] at hk
        · exact ih1 t' ht' k hk
      · intro k hk
        rcases ih2 k hk with h | ⟨t', ht', hks⟩
        · exact Or.inl h
        · exact Or.inr ⟨t', List.mem_cons_of_mem _ ht', hks⟩
    case singleClassification =>
      obtain ⟨ih1, ih2⟩ := ih _ hok
      refine ⟨?_, ?_⟩
      · intro t' ht' k hk
        rcases List.mem_cons.mp ht' with rfl | ht'
        · simp only [expected_heads, hcat, List.mem_singleton] at hk
          subst hk
          refine build_modules_members_mono rest d_sent args _ _ hok _ ?_
          rw [assocGet_assocSet]
          simp
        · exact ih1 t' ht' k hk
      · intro k hk
        rcases ih2 k hk with h | ⟨t', ht', hks⟩
        · rw [assocGet_assocSet] at h
          by_cases he : t.name ++ "_mdl" = k
          · exact Or.inr ⟨t, List.mem_cons_self _ _,
              by simp [expected_heads, hcat, he]⟩
          · rw [if_neg he] at h
            exact Or.inl h
        · exact Or.inr ⟨t', List.mem_cons_of_mem _ ht', hks⟩
    case languageModeling =>
      obtain ⟨ih1, ih2⟩ := ih _ hok
      refine ⟨?_, ?_⟩
      · intro t' ht' k hk
        rcases List.mem_cons.mp ht' with rfl | ht'
        · simp only [expected_heads, hcat, List.mem_singleton] at hk
          subst hk
          refine build_modules_members_mono rest d_sent args _ _ hok _ ?_
          rw [assocGet_assocSet]
          simp
        · exact ih1 t' ht' k hk
      · intro k hk
        rcases ih2 k hk with h | ⟨t', ht', hks⟩
        · rw [assocGet_assocSet] at h
          by_cases he : t.name ++ "_hid2voc" = k
          · exact Or.inr ⟨t, List.mem_cons_self _ _,
              by simp [expected_heads, hcat, he]⟩
          · rw [if_neg he] at h
            exact Or.inl h
        · exact Or.inr ⟨t', List.mem_cons_of_mem _ ht', hks⟩
    case sequenceGeneration =>
      obtain ⟨ih1, ih2⟩ := ih _ hok
      refine ⟨?_, ?_⟩
      · intro t' ht' k hk
        rcases List.mem_cons.mp ht' with rfl | ht'
        · simp only [expected_heads, hcat, List.mem_cons, List.mem_singleton,
            List.not_mem_nil, or_false] at hk
          refine build_modules_members_mono rest d_sent args _ _ hok _ ?_
          rcases hk with rfl | rfl
          · rw [assocGet_assocSet]
            split
            · simp
            · rw [assocGet_assocSet]
              simp
          · rw [assocGet_assocSet]
            simp
        · exact ih1 t' ht' k hk
      · intro k hk
        rcases ih2 k hk with h | ⟨t', ht', hks⟩
        · rw [assocGet_assocSet] at h
          by_cases he2 : t.name ++ "_hid2voc" = k
          · exact Or.inr ⟨t, List.mem_cons_self _ _,
              by simp [expected_heads, hcat, he2]⟩
          · rw [if_neg he2, assocGet_assocSet] at h
            by_cases he1 : t.name ++ "_decoder" = k
            · exact Or.inr ⟨t, List.mem_cons_self _ _,
                by simp [expected_heads, hcat, he1]⟩
            · rw [if_neg he1] at h
              exact Or.inl h
        · exact Or.inr ⟨t', List.mem_cons_of_mem _ ht', hks⟩
    all_goals {
      obtain ⟨ih1, ih2⟩ := ih _ hok
      refine ⟨?_, ?_⟩
      · intro t' ht' k hk
        rcases List.mem_cons.mp ht' with rfl | ht'
        · simp only [expected_heads, hcat, List.mem_singleton] at hk
          subst hk
          refine build_modules_members_mono rest d_sent args _ _ hok _ ?_
          rw [assocGet_assocSet]
          simp
        · exact ih1 t' ht' k hk
      · intro k hk
        rcases ih2 k hk with h | ⟨t', ht', hks⟩
        · rw [assocGet_assocSet] at h
          by_cases he : t.name ++ "_mdl" = k
          · exact Or.inr ⟨t, List.mem_cons_self _ _,
              by simp [expected_heads, hcat, he]⟩
          · rw [if_neg he, build_pair_sentence_module_members] at h
            exact Or.inl h
        · exact Or.inr ⟨t', List.mem_cons_of_mem _ ht', hks⟩
    }

/-- Witness for C1: `build_modules` on one demonstration task of each
category attaches exactly the expected heads. -/
theorem build_modules_heads_complete_witness :
    (∀ t ∈ demoTasks, ∀ k ∈ expected_heads t,
      (assocGet demoBuiltState.members k).isSome) ∧
    (∀ k, (assocGet demoBuiltState.members k).isSome →
      (assocGet initState.members k).isSome ∨ ∃ t ∈ demoTasks, k ∈ expected_heads t) :=
  build_modules_heads_complete demoTasks 16 initState demoArgs demoBuiltState rfl

/-! ## C4 -/

theorem build_pair_sentence_module_shared_attn (task : Task) (d : Nat)
    (st : ModelState) (params : TaskParams) (h : params.shared_pair_attn = true) :
    ((build_pair_sentence_module task d st params).2).pair_attn =
      some (build_pair_sentence_module task d st params).1 := by
  obtain ⟨mem, pa0, nid⟩ := st
  cases pa0 <;> simp [build_pair_sentence_module, build_pair_attn, h]

theorem build_pair_sentence_module_shared_reuse (task : Task) (d : Nat)
    (st : ModelState) (params : TaskParams) (h : params.shared_pair_attn = true)
    (pa : Option Nat) (hst : st.pair_attn = some pa) :
    build_pair_sentence_module task d st params = (pa, st) := by
  obtain ⟨mem, pa0, nid⟩ := st
  simp only at hst
  subst hst
  simp [build_pair_sentence_module, h]

theorem build_modules_shared_attn_inv (tasks : List Task) (d_sent : Nat) (args : Args)
    (hshared : args.shared_pair_attn = true) :
    ∀ (st st1 : ModelState), build_modules tasks d_sent st args = .ok st1 →
    (∀ pa, st.pair_attn = some pa → st1.pair_attn = some pa) ∧
    (∀ n p, assocGet st1.members n = some (.pairMdl p) →
      assocGet st.members n = some (.pairMdl p) ∨ st1.pair_attn = some p) := by
  induction tasks with
  | nil =>
    intro st st1 hok
    simp only [build_modules, Except.ok.injEq] at hok
    subst hok
    exact ⟨fun _ h => h, fun _ _ h => Or.inl h⟩
  | cons t rest ih =>
    intro st st1 hok
    cases hcat : t.category <;> simp only [build_modules, hcat] at hok
    case other => cases hok
    case ranking => exact ih st st1 hok
    case singleClassification =>
      obtain ⟨ihA, ihB⟩ := ih _ _ hok
      refine ⟨fun pa h => ihA pa h, fun n p h => ?_⟩
      rcases ihB n p h with h2 | h2
      · rw [assocGet_assocSet] at h2
        by_cases he : t.name ++ "_mdl" = n
        · rw [if_pos he] at h2
          simp at h2
        · rw [if_neg he] at h2
          exact Or.inl h2
      · exact Or.inr h2
    case languageModeling =>
      obtain ⟨ihA, ihB⟩ := ih _ _ hok
      refine ⟨fun pa h => ihA pa h, fun n p h => ?_⟩
      rcases ihB n p h with h2 | h2
      · rw [assocGet_assocSet] at h2
        by_cases he : t.name ++ "_hid2voc" = n
        · rw [if_pos he] at h2
          simp at h2
        · rw [if_neg he] at h2
          exact Or.inl h2
      · exact Or.inr h2
    case sequenceGeneration =>
      obtain ⟨ihA, ihB⟩ := ih _ _ hok
      refine ⟨fun pa h => ihA pa h, fun n p h => ?_⟩
      rcases ihB n p h with h2 | h2
      · rw [assocGet_assocSet] at h2
        by_cases he2 : t.name ++ "_hid2voc" = n
        · rw [if_pos he2] at h2
          simp at h2
        · rw [if_neg he2, assocGet_assocSet] at h2
          by_cases he1 : t.name ++ "_decoder" = n
          · rw [if_pos he1] at h2
            simp at h2
          · rw [if_neg he1] at h2
            exact Or.inl h2
      · exact Or.inr h2
    all_goals {
      obtain ⟨ihA, ihB⟩ := ih _ _ hok
      have hps : (get_task_specific_params args t.name).shared_pair_attn = true := by
        simp [get_task_specific_params, hshared]
      have hres := build_pair_sentence_module_shared_attn t d_sent st
        (get_task_specific_params args t.name) hps
      have hst1 : st1.pair_attn =
          some (build_pair_sentence_module t d_sent st
            (get_task_specific_params args t.name)).1 :=
        ihA _ hres
      refine ⟨fun pa h => ?_, fun n p h => ?_⟩
      · have hr := build_pair_sentence_module_shared_reuse t d_sent st
          (get_task_specific_params args t.name) hps pa h
        rw [hr] at hst1
        exact hst1
      · rcases ihB n p h with h2 | h2
        · rw [assocGet_assocSet] at h2
          by_cases he : t.name ++ "_mdl" = n
          · rw [if_pos he] at h2
            simp only [Option.some.injEq, Member.pairMdl.injEq] at h2
            rw [← h2]
            exact Or.inr hst1
          · rw [if_neg he, build_pair_sentence_module_members] at h2
            exact Or.inl h2
        · exact Or.inr h2
    }

/-- C4: with `shared_pair_attn = true`, after `build_modules` completes on
a fresh container, every pair-task head holds the same pair-attention
value, and that value is exactly what was attached to the container's
`pair_attn` attribute on first construction — object identity, since the
allocation id `p1` names one `AttnPairEncoder` instance. -/
theorem shared_pair_attn_identical (args : Args) (tasks : List Task) (d_sent : Nat)
    (st1 : ModelState) (hshared : args.shared_pair_attn = true)
    (hok : build_modules tasks d_sent initState args = .ok st1)
    (n1 n2 : String) (p1 p2 : Option Nat)
    (h1 : assocGet st1.members n1 = some (.pairMdl p1))
    (h2 : assocGet st1.members n2 = some (.pairMdl p2)) :
    st1.pair_attn = some p1 ∧ p1 = p2 := by
  obtain ⟨invA, invB⟩ :=
    build_modules_shared_attn_inv tasks d_sent args hshared initState st1 hok
  rcases invB n1 p1 h1 with ha | ha
  · simp [initState, assocGet] at ha
  rcases invB n2 p2 h2 with hb | hb
  · simp [initState, assocGet] at hb
  exact ⟨ha, Option.some.inj (ha.symm.trans hb)⟩

/-- Witness for C4: the two pair tasks of the demonstration list receive
the identical pair-attention instance (allocation id 0), which is also the
attached container attribute. -/
theorem shared_pair_attn_identical_witness :
    demoBuiltState.pair_attn = some (some 0) ∧ (some 0 : Option Nat) = some 0 :=
  shared_pair_attn_identical demoArgs demoTasks 16 demoBuiltState rfl rfl
    "mnli_mdl" "sts_mdl" (some 0) (some 0) rfl rfl

/-! ## C5 -/

theorem filter_zip_congr (pad : Nat) :
    ∀ (t : List Nat) (l1 l2 : Mat), l1.length = t.length → l2.length = t.length →
    (∀ i, i < t.length → t.get? i ≠ some pad → l1.get? i = l2.get? i) →
    ((l1.zip t).filter (fun p => p.2 ≠ pad)) =
      ((l2.zip t).filter (fun p => p.2 ≠ pad)) := by
  intro t
  induction t with
  | nil =>
    intro l1 l2 h1 h2 _
    simp only [List.length_nil, List.length_eq_zero] at h1 h2
    subst h1
    subst h2
    rfl
  | cons a t ih =>
    intro l1 l2 h1 h2 hag
    cases l1 with
    | nil => simp at h1
    | cons x l1 =>
      cases l2 with
      | nil => simp at h2
      | cons y l2 =>
        have hshift : ∀ i, i < t.length → t.get? i ≠ some pad →
            l1.get? i = l2.get? i := by
          intro i hi hne
          have := hag (i + 1) (by simpa using hi) (by simpa using hne)
          simpa using this
        have hrec := ih l1 l2 (by simpa using h1) (by simpa using h2) hshift
        by_cases hpa : a = pad
        · subst hpa
          simpa [List.filter_cons] using hrec
        · have hx : x = y := by
            have := hag 0 (by simp) (by simpa using hpa)
            simpa using this
          subst hx
          simpa [List.filter_cons, hpa] using hrec

theorem crossEntropyIgnore_congr (nll : List ℚ → Nat → ℚ) (l1 l2 : Mat)
    (targs : List Nat) (pad : Nat)
    (h1 : l1.length = targs.length) (h2 : l2.length = targs.length)
    (hag : ∀ i, i < targs.length → targs.get? i ≠ some pad →
      l1.get? i = l2.get? i) :
    crossEntropyIgnore nll l1 targs pad = crossEntropyIgnore nll l2 targs pad := by
  unfold crossEntropyIgnore
  rw [filter_zip_congr pad targs l1 l2 h1 h2 hag]

theorem crossEntropyIgnore_append_congr (nll : List ℚ → Nat → ℚ)
    (a1 a2 b1 b2 : Mat) (tf tb : List Nat) (pad : Nat)
    (ha1 : a1.length = tf.length) (ha2 : a2.length = tf.length)
    (hb1 : b1.length = tb.length) (hb2 : b2.length = tb.length)
    (hagF : ∀ i, i < tf.length → tf.get? i ≠ some pad → a1.get? i = a2.get? i)
    (hagB : ∀ i, i < tb.length → tb.get? i ≠ some pad → b1.get? i = b2.get? i) :
    crossEntropyIgnore nll (a1 ++ b1) (tf ++ tb) pad =
      crossEntropyIgnore nll (a2 ++ b2) (tf ++ tb) pad := by
  unfold crossEntropyIgnore
  rw [List.zip_append ha1, List.zip_append ha2, List.filter_append, List.filter_append,
    filter_zip_congr pad tf a1 a2 ha1 ha2 hagF, filter_zip_congr pad tb b1 b2 hb1 hb2 hagB]

/-- C5: a language-modeling forward call's loss is invariant under changes
to the encoder outputs (hence the logits) at positions whose target is the
padding index, on both paths of the forward: for the plain encoder,
changing the encoding only where the target is the padding index leaves
the loss unchanged; for the `BiLMEncoder` variant, whose forward and
backward logit rows at a position are both projected from the same
encoder row, changing the encoding only where the forward and backward
targets are both the padding index leaves the combined loss unchanged.
The two environments must agree on the per-row loss term, the projection,
and the produced mask. -/
theorem lm_loss_pad_invariant (env1 env2 : Env) (m : MultiTaskModel) (task : Task)
    (batch : Batch) (inputF targsF : TokenField)
    (hcat : task.category = .languageModeling)
    (hnll : env1.nll = env2.nll)
    (hh2v : env1.hid2voc = env2.hid2voc)
    (hinp : batch.input = some inputF)
    (htargs : batch.targs = some targsF)
    (huni : m.isBiLM = false →
      (env1.encode inputF.words).2 = (env2.encode inputF.words).2 ∧
      (env1.encode inputF.words).1.length = targsF.words.length ∧
      (env2.encode inputF.words).1.length = targsF.words.length ∧
      (env1.encode inputF.words).2.length = targsF.words.length ∧
      ∀ i, i < targsF.words.length → targsF.words.get? i ≠ some m.padIdx →
        (env1.encode inputF.words).1.get? i = (env2.encode inputF.words).1.get? i)
    (hbil : ∀ inputB targsB, m.isBiLM = true → batch.input_bwd = some inputB →
      batch.targs_b = some targsB →
      (env1.encodeBi inputF.words inputB.words).2 =
        (env2.encodeBi inputF.words inputB.words).2 ∧
      (env1.encodeBi inputF.words inputB.words).1.length = targsF.words.length ∧
      (env2.encodeBi inputF.words inputB.words).1.length = targsF.words.length ∧
      (env1.encodeBi inputF.words inputB.words).2.length = targsF.words.length ∧
      targsB.words.length = targsF.words.length ∧
      ∀ i, i < targsF.words.length →
        (targsF.words.get? i ≠ some m.padIdx ∨ targsB.words.get? i ≠ some m.padIdx) →
        (env1.encodeBi inputF.words inputB.words).1.get? i =
          (env2.encodeBi inputF.words inputB.words).1.get? i) :
    Except.map Out.loss (MultiTaskModel.forward env1 m task batch) =
      Except.map Out.loss (MultiTaskModel.forward env2 m task batch) := by
  simp only [MultiTaskModel.forward, hcat]
  unfold lm_forward
  simp only [hinp, htargs]
  rcases Bool.eq_false_or_eq_true m.isBiLM with hb | hb
  · simp only [hb]
    simp only [not_true, if_false]
    cases hbw : batch.input_bwd with
    | none => simp [hbw]
    | some inputB =>
      simp only [hbw]
      cases hmem : assocGet m.st.members (task.name ++ "_hid2voc") with
      | none => simp [hmem]
      | some h2v =>
        simp only [hmem]
        cases htb : batch.targs_b with
        | none => simp [htb]
        | some targsB =>
          simp only [htb, Except.map]
          obtain ⟨hmask, hlen1, hlen2, hmlen, htblen, hag⟩ := hbil inputB targsB hb hbw htb
          simp only [Except.ok.injEq, Option.some.injEq]
          rw [hnll]
          refine crossEntropyIgnore_append_congr _ _ _ _ _ _ _ _ ?_ ?_ ?_ ?_ ?_ ?_
          · simp [maskedFill, List.length_zipWith, hlen1, hmlen]
          · simp [maskedFill, List.length_zipWith, hlen2, ← hmask, hmlen]
          · simp [maskedFill, List.length_zipWith, hlen1, hmlen, htblen]
          · simp [maskedFill, List.length_zipWith, hlen2, ← hmask, hmlen, htblen]
          · intro i hi hne
            have hsv := hag i hi (Or.inl hne)
            simp only [List.get?_map, maskedFill, List.get?_zipWith', hsv, hmask, hh2v]
          · intro i hi hne
            have hi2 : i < targsF.words.length := htblen ▸ hi
            have hsv := hag i hi2 (Or.inr hne)
            simp only [List.get?_map, maskedFill, List.get?_zipWith', hsv, hmask, hh2v]
  · obtain ⟨hmask, hlen1, hlen2, hmlen, hag⟩ := huni hb
    simp only [hb]
    simp only [if_pos (show ¬ false = true by simp)]
    cases hmem : assocGet m.st.members (task.name ++ "_hid2voc") with
    | none => simp [hmem]
    | some h2v =>
      simp only [hmem, Except.map]
      have hloss :
          crossEntropyIgnore env1.nll
            ((maskedFill (env1.encode inputF.words).2 (env1.encode inputF.words).1).map
              (env1.hid2voc h2v)) targsF.words m.padIdx =
          crossEntropyIgnore env2.nll
            ((maskedFill (env2.encode inputF.words).2 (env2.encode inputF.words).1).map
              (env2.hid2voc h2v)) targsF.words m.padIdx := by
        rw [hnll]
        refine crossEntropyIgnore_congr _ _ _ _ _ ?_ ?_ ?_
        · simp [maskedFill, List.length_zipWith, hlen1, hmlen]
        · simp [maskedFill, List.length_zipWith, hlen2, ← hmask, hmlen]
        · intro i hi hne
          have hsv := hag i hi hne
          simp only [List.get?_map, maskedFill, List.get?_zipWith', hsv, hmask, hh2v]
      rw [hloss]

/-- Two concrete environments whose bidirectional encodings differ only in
the encoder row at position 1, where both the forward and backward targets
are the padding index 0. -/
def lmBiEnv1 : Env :=
  { demoEnv with encodeBi := fun _ _ => ([[1, 2], [3, 4]], [true, true]) }

def lmBiEnv2 : Env :=
  { demoEnv with encodeBi := fun _ _ => ([[1, 2], [9, 9]], [true, true]) }

/-- A `BiLMEncoder`-backed container with the language-model head attached;
`output_dim = 2`, so each encoder row splits into width-1 forward and
backward halves. -/
def lmBiModel : MultiTaskModel :=
  { st := { members := [("lm_hid2voc", Member.hid2voc)], pair_attn := none, nextId := 0 },
    isBiLM := true, outputDim := 2, padIdx := 0 }

/-- A bidirectional batch whose forward and backward targets both hold the
padding index at position 1. -/
def lmBiBatch : Batch :=
  { input := some { words := [7, 8] }, input_bwd := some { words := [8, 7] },
    targs := some { words := [5, 0] }, targs_b := some { words := [6, 0] } }

/-- Witness for C5 at the two concrete environments, on the `BiLMEncoder`
path. -/
theorem lm_loss_pad_invariant_witness :
    Except.map Out.loss
        (MultiTaskModel.forward lmBiEnv1 lmBiModel
          { name := "lm", category := .languageModeling } lmBiBatch) =
      Except.map Out.loss
        (MultiTaskModel.forward lmBiEnv2 lmBiModel
          { name := "lm", category := .languageModeling } lmBiBatch) := by
  refine lm_loss_pad_invariant lmBiEnv1 lmBiEnv2 lmBiModel
    { name := "lm", category := .languageModeling } lmBiBatch
    { words := [7, 8] } { words := [5, 0] } rfl rfl rfl rfl rfl
    (fun h => absurd h (by decide)) ?_
  intro inputB targsB _ hbw htb
  simp only [lmBiBatch, Option.some.injEq] at hbw htb
  subst hbw
  subst htb
  exact ⟨rfl, rfl, rfl, rfl, rfl, by decide⟩

/-! ## C8 -/

/-- Counterexample to C8 as stated: a sequence-generation forward call (a
recognized category) returns a mapping with no `"logits"` key — and no
`"loss"` key even though the batch supplies targets. -/
theorem seq_gen_forward_no_logits_cex :
    MultiTaskModel.forward demoEnv demoModel
      { name := "mt", category := .sequenceGeneration }
      { inputs := some { words := [1, 2] }, targs := some { words := [3, 4] } } =
      .ok { logits := none, loss := none } := rfl

/-- C8 (amended): whenever `MultiTaskModel.forward` returns a mapping, that
mapping contains `"logits"` with `"loss"` present exactly when the batch
supplies labels — for single-sentence and pair categories; for language
modeling a successful call (which requires targets) always contains both
`"logits"` and `"loss"`; for sequence generation the returned mapping is
empty (the path is a stub); and ranking calls never return a mapping. -/
theorem forward_logits_loss_spec (env : Env) (m : MultiTaskModel) (task : Task)
    (batch : Batch) (out : Out)
    (hok : MultiTaskModel.forward env m task batch = .ok out) :
    (task.category = .singleClassification →
      out.logits.isSome ∧ (out.loss.isSome ↔ batch.labels.isSome)) ∧
    ((task.category = .pairClassification ∨ task.category = .pairRegression ∨
      task.category = .pairOrdinalRegression) →
      out.logits.isSome ∧ (out.loss.isSome ↔ batch.labels.isSome)) ∧
    (task.category = .languageModeling → out.logits.isSome ∧ out.loss.isSome) ∧
    (task.category = .sequenceGeneration → out.logits = none ∧ out.loss = none) ∧
    task.category ≠ .ranking := by
  refine ⟨?_, ?_, ?_, ?_, ?_⟩
  · intro h
    simp only [MultiTaskModel.forward, h] at hok
    unfold single_sentence_forward at hok
    cases hi : batch.input1 <;> simp only [hi] at hok
    · cases hok
    · cases hmem : assocGet m.st.members (task.name ++ "_mdl") <;>
        simp only [hmem] at hok
      · cases hok
      · cases hl : batch.labels <;> simp only [hl] at hok <;> cases hok <;> simp [hl]
  · intro h
    have hscript : ∀ hcat2 : TaskCategory,
        (hcat2 = .pairClassification ∨ hcat2 = .pairRegression ∨
          hcat2 = .pairOrdinalRegression) →
        pair_sentence_forward env m batch task = .ok out →
        out.logits.isSome ∧ (out.loss.isSome ↔ batch.labels.isSome) := by
      intro hcat2 _ hok2
      unfold pair_sentence_forward at hok2
      cases hi : batch.input1 <;> simp only [hi] at hok2
      · cases hok2
      · cases hi2 : batch.input2 <;> simp only [hi2] at hok2
        · cases hok2
        · cases hmem : assocGet m.st.members (task.name ++ "_mdl") <;>
            simp only [hmem] at hok2
          · cases hok2
          · cases hl : batch.labels <;> simp only [hl] at hok2
            · cases hok2
              simp [hl]
            · split_ifs at hok2 <;> cases hok2 <;> simp [hl]
    rcases h with h | h | h <;>
      simp only [MultiTaskModel.forward, h] at hok <;>
      exact hscript task.category (by simp [h]) hok
  · intro h
    simp only [MultiTaskModel.forward, h] at hok
    unfold lm_forward at hok
    cases hi : batch.input <;> simp only [hi] at hok
    · cases hok
    · split_ifs at hok
      · cases hb : batch.input_bwd <;> simp only [hb] at hok
        · cases hok
        · cases hmem : assocGet m.st.members (task.name ++ "_hid2voc") <;>
            simp only [hmem] at hok
          · cases hok
          · cases ht : batch.targs <;> simp only [ht] at hok
            · cases hok
            · cases htb : batch.targs_b <;> simp only [htb] at hok
              · cases hok
              · cases hok
                simp
      · cases hmem : assocGet m.st.members (task.name ++ "_hid2voc") <;>
          simp only [hmem] at hok
        · cases hok
        · cases ht : batch.targs <;> simp only [ht] at hok
          · cases hok
          · cases hok
            simp
  · intro h
    simp only [MultiTaskModel.forward, h] at hok
    unfold seq_gen_forward at hok
    cases hi : batch.inputs <;> simp only [hi] at hok
    · cases hok
    · cases hok
      exact ⟨rfl, rfl⟩
  · intro h
    simp only [MultiTaskModel.forward, h, ranking_forward] at hok
    cases hok

/-- A single-sentence task, container and batch with labels present. -/
def singleModel : MultiTaskModel :=
  { st := { members := [("sst_mdl", Member.singleMdl)], pair_attn := none, nextId := 0 },
    isBiLM := false, outputDim := 2, padIdx := 0 }

/-- Witness for the amended C8 at a concrete single-sentence call. -/
theorem forward_logits_loss_spec_witness :
    (Out.logits { logits := some [], loss := some 0 }).isSome ∧
    ((Out.loss { logits := some [], loss := some 0 }).isSome ↔
      (Batch.labels { input1 := some [1, 2], labels := some [0] }).isSome) :=
  (forward_logits_loss_spec demoEnv singleModel
    { name := "sst", category := .singleClassification }
    { input1 := some [1, 2], labels := some [0] }
    { logits := some [], loss := some 0 } rfl).1 rfl

/-- A task list and configuration for evaluating `build_model` concretely. -/
def noLMTasks : List Task :=
  [ { name := "sst", category := .singleClassification },
    { name := "mnli", category := .pairClassification } ]

/-- Witness for C3 at a concrete bidirectional-RNN, skip-embedding
configuration: `d_sent = 2 * 8 + 400`. -/
theorem build_model_d_sent_spec_witness :
    ({ d_emb := 400, d_sent := (1 + 1) * 8 + 400,
       model :=
        { members :=
            [ ("sst_mdl", Member.singleMdl),
              ("mnli_mdl", Member.pairMdl (some 0)) ],
          pair_attn := some (some 0), nextId := 1 } } : BuiltModel).d_sent
      = (1 + (if demoArgs.bidirectional then 1 else 0)) * demoArgs.d_hid
        + (if demoArgs.skip_embs then
            ({ d_emb := 400, d_sent := (1 + 1) * 8 + 400,
               model :=
                { members :=
                    [ ("sst_mdl", Member.singleMdl),
                      ("mnli_mdl", Member.pairMdl (some 0)) ],
                  pair_attn := some (some 0), nextId := 1 } } : BuiltModel).d_emb
          else 0) :=
  (build_model_d_sent_spec demoArgs none true noLMTasks _ rfl rfl).2.1 rfl

end Models
